import Mathlib

/- Verification of the pub-sub-system broker core: a shallow embedding of the
Go sources (the `models`, `pubsub` and `handlers` packages together with the
standalone `main` variant) and proofs about topic history, replay, registry
admission, deletion, subscription and fan-out. Go maps are modelled as
association lists (iteration order determinizes Go's arbitrary map order),
channels as bounded lists, and side effects on connections and queues as
explicit effect records. -/

namespace PubSub

/-- Go struct `Message {ID string; Payload interface{}}`; the opaque JSON
payload is a type parameter. -/
structure Message (α : Type) where
  id : String
  payload : α
deriving Repr, DecidableEq

/-- Lookup in a Go map modelled as an association list (`v, ok := m[k]`). -/
def lookupKey (m : List (String × β)) (k : String) : Option β :=
  (m.find? (fun p => p.1 = k)).map (fun p => p.2)

/-- Go map assignment `m[k] = v`: replace when the key is present, else add. -/
def setKey : List (String × β) → String → β → List (String × β)
  | [], k, v => [(k, v)]
  | p :: rest, k, v => if p.1 = k then (k, v) :: rest else p :: setKey rest k v

/-- Go `delete(m, k)`. -/
def eraseKey (m : List (String × β)) (k : String) : List (String × β) :=
  m.filter (fun p => p.1 ≠ k)

/-- Go struct `Subscriber`: bounded queue channel modelled as the list of
pending messages plus the channel capacity. -/
structure Subscriber (α : Type) where
  id : String
  topic : String
  queue : List (Message α)
  maxQueue : Nat
deriving Repr, DecidableEq

/-- Go struct `Topic`: subscribers map, history slice, history capacity. -/
structure Topic (α : Type) where
  name : String
  subscribers : List (String × Subscriber α)
  messages : List (Message α)
  maxMessages : Nat
deriving Repr, DecidableEq

/-- Observable side effects on subscriber resources: `close(sub.Queue)`,
`sub.Conn.Close()`, and `sub.Conn.WriteJSON` of an error record. -/
inductive Effect where
  | queueClosed (subId : String)
  | connClosed (subId : String)
  | wroteError (subId : String) (code : String) (emsg : String)
deriving Repr, DecidableEq

/-- Go `Topic.AddMessage`: append to the history; when the length exceeds
`MaxMessages`, drop the oldest entry (`t.Messages = t.Messages[1:]`). -/
def Topic.addMessage (t : Topic α) (msg : Message α) : Topic α :=
  let ms := t.messages ++ [msg]
  { t with messages := if ms.length > t.maxMessages then ms.tail else ms }

/-- Go `Topic.GetLastMessages`: clamp `n` to the history length when `n <= 0`
or `n > len(t.Messages)`, then copy the last `n` entries. `n` is a Go `int`. -/
def Topic.getLastMessages (t : Topic α) (n : Int) : List (Message α) :=
  let len : Int := t.messages.length
  let m : Int := if n ≤ 0 ∨ len < n then len else n
  t.messages.drop (t.messages.length - m.toNat)

/-- Go `Topic.RemoveSubscriber` and the identical wired
`TopicManager.RemoveSubscriber`: when the id is present, close its queue and
delete it from the map; otherwise do nothing. -/
def Topic.removeSubscriber (t : Topic α) (subId : String) : Topic α × List Effect :=
  match lookupKey t.subscribers subId with
  | some _ => ({ t with subscribers := eraseKey t.subscribers subId },
               [Effect.queueClosed subId])
  | none => (t, [])

/-- Non-blocking bounded-channel send `select { case q <- msg: ... default: ... }`:
succeeds exactly when the buffer has room. -/
def trySend (s : Subscriber α) (msg : Message α) : Subscriber α × Bool :=
  if s.queue.length < s.maxQueue then ({ s with queue := s.queue ++ [msg] }, true)
  else (s, false)

/-- Go `Topic.Broadcast` and the identical wired `TopicManager.Broadcast`:
snapshot the subscribers, then for each one attempt a non-blocking enqueue; on
a full queue write a `SLOW_CONSUMER` error record to the subscriber's
connection and close the connection. The subscribers map itself is left
untouched by this function. -/
def Topic.broadcast (t : Topic α) (msg : Message α) : Topic α × List Effect :=
  ({ t with subscribers := t.subscribers.map (fun p => (p.1, (trySend p.2 msg).1)) },
   t.subscribers.flatMap (fun p =>
     if (trySend p.2 msg).2 then []
     else [Effect.wroteError p.1 "SLOW_CONSUMER" "Subscriber queue overflow",
           Effect.connClosed p.1]))

/-- Go `strconv.Atoi`: optional sign followed by at least one decimal digit. -/
def digitsToNat (cs : List Char) : Option Nat :=
  if cs = [] then none
  else if cs.all Char.isDigit then
    some (cs.foldl (fun acc c => acc * 10 + (c.toNat - 48)) 0)
  else none

/-- Go `strconv.Atoi` on a string: sign handling then digits. -/
def atoi (s : String) : Option Int :=
  match s.toList with
  | [] => none
  | c :: rest =>
    if c = '-' then (digitsToNat rest).map (fun n => -(n : Int))
    else if c = '+' then (digitsToNat rest).map (fun n => (n : Int))
    else (digitsToNat (c :: rest)).map (fun n => (n : Int))

/-- Go `getEnvInt` from the `pubsub` package: the environment is a total map
from names to values with `""` meaning unset, exactly as `os.Getenv` reports;
a set but unparseable value falls back to the default. -/
def getEnvInt (env : String → String) (key : String) (defaultValue : Int) : Int :=
  if env key ≠ "" then
    match atoi (env key) with
    | some n => n
    | none => defaultValue
  else defaultValue

/-- Go `TopicManager.AddMessage` (the wired `pubsub` topic manager, called by
the served publish path): the history bound is read per call as
`getEnvInt("TOPIC_HISTORY_SIZE", 100)`; append, then drop the oldest entry
when the bound is exceeded. The topic's own `MaxMessages` field plays no
role here. -/
def TopicManager.addMessage (env : String → String) (t : Topic α) (msg : Message α) :
    Topic α :=
  let maxMessages := getEnvInt env "TOPIC_HISTORY_SIZE" 100
  let ms := t.messages ++ [msg]
  { t with messages := if (ms.length : Int) > maxMessages then ms.tail else ms }

/-- Go `TopicManager.AddSubscriber` (the wired `pubsub` topic manager, called
by the served subscribe path): the per-topic cap is read per call as
`getEnvInt("MAX_SUBSCRIBERS_PER_TOPIC", 100)`; reject at or above the cap,
else insert. -/
def TopicManager.addSubscriber (env : String → String) (t : Topic α)
    (sub : Subscriber α) : Except String (Topic α) :=
  if getEnvInt env "MAX_SUBSCRIBERS_PER_TOPIC" 100 ≤ (t.subscribers.length : Int) then
    Except.error "maximum subscribers reached for topic"
  else Except.ok { t with subscribers := setKey t.subscribers sub.id sub }

/-- Go `SubscriberManager.NewSubscriber` (the wired `pubsub` subscriber
manager): the bounded queue capacity is `getEnvInt("SUBSCRIBER_QUEUE_SIZE",
100)`. A Go channel capacity is a non-negative int (a negative size panics at
`make`), so the model clamps at 0 and the capacity theorem assumes the
configured value is non-negative. -/
def SubscriberManager.newSubscriber (α : Type) (env : String → String)
    (id topicName : String) : Subscriber α :=
  { id := id, topic := topicName, queue := [],
    maxQueue := (getEnvInt env "SUBSCRIBER_QUEUE_SIZE" 100).toNat }

/-- Go struct `PubSubSystem`: topic registry plus configured caps. -/
structure PubSubSystem (α : Type) where
  topics : List (String × Topic α)
  maxTopics : Int
  maxSubscribers : Int
deriving Repr, DecidableEq

/-- Go `NewPubSubSystem` from the `pubsub` package: only `MAX_TOPICS` and
`MAX_SUBSCRIBERS_PER_TOPIC` are read from the environment (default 100 each);
no other limit is consulted. -/
def newPubSubSystem (α : Type) (env : String → String) : PubSubSystem α :=
  { topics := [],
    maxTopics := getEnvInt env "MAX_TOPICS" 100,
    maxSubscribers := getEnvInt env "MAX_SUBSCRIBERS_PER_TOPIC" 100 }

/-- Go `PubSubSystem.NewTopic`: the capacity check (`len(ps.Topics) >=
ps.MaxTopics`) runs before the duplicate-name check; the new topic's history
capacity is the hardcoded literal 100. Returns the possibly updated registry
together with the Go `(topic, error)` result. -/
def PubSubSystem.newTopic (ps : PubSubSystem α) (name : String) :
    PubSubSystem α × Except String (Topic α) :=
  if ps.maxTopics ≤ (ps.topics.length : Int) then
    (ps, Except.error "maximum topics reached")
  else if (lookupKey ps.topics name).isSome then
    (ps, Except.error "topic already exists")
  else
    let t : Topic α := { name := name, subscribers := [], messages := [], maxMessages := 100 }
    ({ ps with topics := setKey ps.topics name t }, Except.ok t)

/-- Go `PubSubSystem.DeleteTopic`: when the topic is present, close every
subscriber's queue and connection and remove the topic from the registry. -/
def PubSubSystem.deleteTopic (ps : PubSubSystem α) (name : String) :
    PubSubSystem α × Except String Unit × List Effect :=
  match lookupKey ps.topics name with
  | none => (ps, Except.error "topic not found", [])
  | some t =>
    ({ ps with topics := eraseKey ps.topics name }, Except.ok (),
     t.subscribers.flatMap (fun p => [Effect.queueClosed p.1, Effect.connClosed p.1]))

theorem addMessage_maxMessages (t : Topic α) (msg : Message α) :
    (t.addMessage msg).maxMessages = t.maxMessages := rfl

theorem addMessage_messages (t : Topic α) (msg : Message α)
    (h : t.messages.length ≤ t.maxMessages) :
    (t.addMessage msg).messages
      = (t.messages ++ [msg]).drop (t.messages.length + 1 - t.maxMessages) := by
  simp only [Topic.addMessage]
  split
  · rename_i hgt
    rw [← List.drop_one]
    congr 1
    simp only [List.length_append, List.length_singleton] at hgt
    omega
  · rename_i hle
    simp only [List.length_append, List.length_singleton, Nat.not_lt] at hle
    have hz : t.messages.length + 1 - t.maxMessages = 0 := by omega
    rw [hz, List.drop_zero]

theorem addMessage_length_le (t : Topic α) (msg : Message α)
    (h : t.messages.length ≤ t.maxMessages) :
    (t.addMessage msg).messages.length ≤ t.maxMessages := by
  simp only [Topic.addMessage]
  split
  · rename_i hgt
    simp only [List.length_tail, List.length_append, List.length_singleton] at hgt ⊢
    omega
  · rename_i hle
    simp only [List.length_append, List.length_singleton, Nat.not_lt] at hle ⊢
    omega

theorem foldl_addMessage_messages (msgs : List (Message α)) (t : Topic α)
    (h : t.messages.length ≤ t.maxMessages) :
    (msgs.foldl Topic.addMessage t).messages
      = (t.messages ++ msgs).drop (t.messages.length + msgs.length - t.maxMessages) := by
  induction msgs generalizing t with
  | nil =>
    simp only [List.foldl_nil, List.append_nil, List.length_nil, Nat.add_zero]
    rw [Nat.sub_eq_zero_of_le h, List.drop_zero]
  | cons m rest ih =>
    rw [List.foldl_cons]
    have h1 : (t.addMessage m).messages.length ≤ (t.addMessage m).maxMessages := by
      rw [addMessage_maxMessages]
      exact addMessage_length_le t m h
    rw [ih _ h1, addMessage_maxMessages, addMessage_messages t m h]
    have hd : t.messages.length + 1 - t.maxMessages ≤ (t.messages ++ [m]).length := by
      simp only [List.length_append, List.length_singleton]
      omega
    rw [← List.drop_append_of_le_length hd, List.drop_drop]
    have hlist : (t.messages ++ [m]) ++ rest = t.messages ++ m :: rest := by
      rw [List.append_assoc, List.singleton_append]
    rw [hlist]
    have hidx : (t.messages.length + 1 - t.maxMessages)
          + (((t.messages ++ [m]).drop (t.messages.length + 1 - t.maxMessages)).length
              + rest.length - t.maxMessages)
        = t.messages.length + (m :: rest).length - t.maxMessages := by
      simp only [List.length_drop, List.length_append, List.length_singleton,
        List.length_cons, List.length_nil]
      omega
    rw [hidx]

/-- C2: starting from an empty history, after any prefix of `k` publications
the topic's history is exactly the last `min(k, H)` published messages in
publication order, where `H` is the topic's history capacity; each append that
would exceed `H` drops exactly the oldest entry. -/
theorem history_after_each_publication (t : Topic α) (msgs : List (Message α))
    (h : t.messages = []) (k : Nat) :
    ((msgs.take k).foldl Topic.addMessage t).messages
        = (msgs.take k).drop ((msgs.take k).length - t.maxMessages) ∧
      ((msgs.take k).foldl Topic.addMessage t).messages.length
        = min (msgs.take k).length t.maxMessages := by
  have h0 : t.messages.length ≤ t.maxMessages := by simp [h]
  have hmain := foldl_addMessage_messages (msgs.take k) t h0
  rw [h] at hmain
  simp only [List.nil_append, List.length_nil, Nat.zero_add] at hmain
  refine ⟨hmain, ?_⟩
  rw [hmain]
  simp only [List.length_drop]
  omega

/-- C2 witness: three publications on an empty topic with history capacity 2
keep exactly the last two messages in order. -/
theorem history_after_each_publication_witness :
    (List.foldl Topic.addMessage
        { name := "a", subscribers := [], messages := [], maxMessages := 2 }
        (([⟨"m1", 0⟩, ⟨"m2", 0⟩, ⟨"m3", 0⟩] : List (Message Nat)).take 3)).messages
      = [⟨"m2", 0⟩, ⟨"m3", 0⟩] := by
  have h := history_after_each_publication
    (α := Nat)
    { name := "a", subscribers := [], messages := [], maxMessages := 2 }
    [⟨"m1", 0⟩, ⟨"m2", 0⟩, ⟨"m3", 0⟩] rfl 3
  rw [h.1]
  decide

/-- C3: replay via `GetLastMessages` returns the `n` most recent history
entries in publication order when `0 < n ≤ |history|`, and the whole history
when `n ≤ 0` or `n > |history|` (silent clamping, no error). -/
theorem getLastMessages_clamp (t : Topic α) (n : Int) :
    (0 < n → n ≤ (t.messages.length : Int) →
       t.getLastMessages n = t.messages.drop (t.messages.length - n.toNat) ∧
       (t.getLastMessages n).length = n.toNat) ∧
    ((n ≤ 0 ∨ (t.messages.length : Int) < n) → t.getLastMessages n = t.messages) := by
  constructor
  · intro hpos hle
    have hcond : ¬(n ≤ 0 ∨ (t.messages.length : Int) < n) := by omega
    constructor
    · simp only [Topic.getLastMessages, if_neg hcond]
    · simp only [Topic.getLastMessages, if_neg hcond, List.length_drop]
      omega
  · intro hcond
    simp only [Topic.getLastMessages, if_pos hcond]
    have hz : t.messages.length - (t.messages.length : Int).toNat = 0 := by omega
    rw [hz, List.drop_zero]

/-- C3 witness: on a three-message history, `GetLastMessages 2` yields the two
most recent messages and `GetLastMessages (-1)` yields the whole history. -/
theorem getLastMessages_clamp_witness :
    (Topic.getLastMessages (α := Nat)
        { name := "a", subscribers := [],
          messages := [⟨"m1", 0⟩, ⟨"m2", 0⟩, ⟨"m3", 0⟩], maxMessages := 100 } 2
      = [⟨"m2", 0⟩, ⟨"m3", 0⟩]) ∧
    (Topic.getLastMessages (α := Nat)
        { name := "a", subscribers := [],
          messages := [⟨"m1", 0⟩, ⟨"m2", 0⟩, ⟨"m3", 0⟩], maxMessages := 100 } (-1)
      = [⟨"m1", 0⟩, ⟨"m2", 0⟩, ⟨"m3", 0⟩]) := by
  constructor
  · rw [(getLastMessages_clamp (α := Nat)
      { name := "a", subscribers := [],
        messages := [⟨"m1", 0⟩, ⟨"m2", 0⟩, ⟨"m3", 0⟩], maxMessages := 100 } 2).1
      (by decide) (by decide) |>.1]
    decide
  · rw [(getLastMessages_clamp (α := Nat)
      { name := "a", subscribers := [],
        messages := [⟨"m1", 0⟩, ⟨"m2", 0⟩, ⟨"m3", 0⟩], maxMessages := 100 } (-1)).2
      (Or.inl (by decide))]

theorem lookupKey_cons (p : String × β) (rest : List (String × β)) (k : String) :
    lookupKey (p :: rest) k = if p.1 = k then some p.2 else lookupKey rest k := by
  unfold lookupKey
  by_cases h : p.1 = k
  · rw [List.find?_cons_of_pos rest (by simpa using h), if_pos h]
    rfl
  · rw [List.find?_cons_of_neg rest (by simpa using h), if_neg h]

theorem lookupKey_setKey_self (m : List (String × β)) (k : String) (v : β) :
    lookupKey (setKey m k v) k = some v := by
  induction m with
  | nil => simp [setKey, lookupKey_cons]
  | cons p rest ih =>
    by_cases h : p.1 = k
    · simp [setKey, h, lookupKey_cons]
    · simp [setKey, h, lookupKey_cons, ih]

theorem length_setKey (m : List (String × β)) (k : String) (v : β) :
    (setKey m k v).length
      = if (lookupKey m k).isSome then m.length else m.length + 1 := by
  induction m with
  | nil => simp [setKey, lookupKey]
  | cons p rest ih =>
    by_cases h : p.1 = k
    · simp [setKey, h, lookupKey_cons]
    · simp only [setKey, if_neg h, List.length_cons, ih, lookupKey_cons, h, if_false]
      split <;> simp

theorem mem_setKey (m : List (String × β)) (k : String) (v : β) (q : String × β)
    (hq : q ∈ setKey m k v) : q = (k, v) ∨ q ∈ m := by
  induction m with
  | nil =>
    simp [setKey] at hq
    exact Or.inl hq
  | cons p rest ih =>
    by_cases h : p.1 = k
    · simp [setKey, h] at hq
      rcases hq with h1 | h1
      · exact Or.inl h1
      · exact Or.inr (List.mem_cons_of_mem _ h1)
    · simp only [setKey, if_neg h, List.mem_cons] at hq
      rcases hq with h1 | h1
      · exact Or.inr (by simp [h1])
      · rcases ih h1 with h2 | h2
        · exact Or.inl h2
        · exact Or.inr (List.mem_cons_of_mem _ h2)

theorem lookupKey_eraseKey_self (m : List (String × β)) (k : String) :
    lookupKey (eraseKey m k) k = none := by
  simp only [lookupKey, eraseKey]
  cases hf : (m.filter fun p => p.1 ≠ k).find? (fun p => p.1 = k) with
  | none => rfl
  | some q =>
    have hq1 := List.find?_some hf
    have hq3 := List.of_mem_filter (List.mem_of_find?_eq_some hf)
    simp at hq1 hq3
    exact absurd hq1 hq3

theorem lookupKey_mem (m : List (String × β)) (k : String) (v : β)
    (h : lookupKey m k = some v) : (k, v) ∈ m := by
  unfold lookupKey at h
  cases hf : m.find? (fun p => p.1 = k) with
  | none => rw [hf] at h; simp at h
  | some q =>
    rw [hf] at h
    simp at h
    have hq1 := List.find?_some hf
    have hq2 := List.mem_of_find?_eq_some hf
    simp at hq1
    have hqv : q = (k, v) := by
      cases q
      simp_all
    rwa [hqv] at hq2

/-- Server response envelopes that matter to the claims: acknowledgments and
error records (Go `ServerMessage` with `type` "ack" or "error"). -/
inductive Response (α : Type) where
  | ack (topicName : String) (status : String)
  | errorResp (code : String) (emsg : String)
deriving Repr, DecidableEq

/-- Go `handleUnsubscribe`: validate the required fields, look up the topic,
remove the subscriber (idempotently), and acknowledge with status "ok". -/
def handleUnsubscribe (ps : PubSubSystem α) (topicName clientId : String) :
    PubSubSystem α × Response α × List Effect :=
  if topicName = "" ∨ clientId = "" then
    (ps, Response.errorResp "BAD_REQUEST" "Topic and client_id are required", [])
  else
    match lookupKey ps.topics topicName with
    | none => (ps, Response.errorResp "TOPIC_NOT_FOUND" "Topic does not exist", [])
    | some t =>
      let r := t.removeSubscriber clientId
      ({ ps with topics := setKey ps.topics topicName r.1 },
       Response.ack topicName "ok", r.2)

/-- The topic record `PubSubSystem.NewTopic` installs: empty subscriber map,
empty history, history capacity hardcoded to 100. -/
def freshTopic (α : Type) (name : String) : Topic α :=
  { name := name, subscribers := [], messages := [], maxMessages := 100 }

/-- A topic with no subscribers, used in concrete checks. -/
def topicA : Topic Nat := { name := "a", subscribers := [], messages := [], maxMessages := 100 }

/-- A registry at capacity (MaxTopics = 1) that already contains "a". -/
def psOneFull : PubSubSystem Nat :=
  { topics := [("a", topicA)], maxTopics := 1, maxSubscribers := 100 }

/-- A subscriber with an empty queue, used in concrete checks. -/
def subS1 : Subscriber Nat := { id := "s1", topic := "a", queue := [], maxQueue := 100 }

/-- A topic holding the single subscriber "s1". -/
def topicS1 : Topic Nat :=
  { name := "a", subscribers := [("s1", subS1)], messages := [], maxMessages := 100 }

/-- A registry holding the topic "a" with subscriber "s1". -/
def psS1 : PubSubSystem Nat :=
  { topics := [("a", topicS1)], maxTopics := 100, maxSubscribers := 100 }

/-- C4 counterexample: in a registry at capacity that already contains "a",
NewTopic "a" reports the capacity error, not the duplicate-name error the
claim requires for an already-present name. -/
theorem newTopic_nameInUse_counterexample :
    (lookupKey psOneFull.topics "a").isSome = true ∧
    psOneFull.newTopic "a" = (psOneFull, Except.error "maximum topics reached") ∧
    (psOneFull.newTopic "a").2 ≠ Except.error "topic already exists" := by
  refine ⟨rfl, rfl, ?_⟩
  intro hcontra
  have hred : (psOneFull.newTopic "a").2 = Except.error "maximum topics reached" := rfl
  rw [hred] at hcontra
  injection hcontra with h2
  exact absurd h2 (by decide)

/-- C4 amended: NewTopic returns the duplicate-name error only when the
registry is strictly below capacity; at or above capacity it returns the
capacity error even for a duplicate name; otherwise it installs a fresh topic
with empty history and empty subscriber set. On either error the registry is
returned unchanged. -/
theorem newTopic_admission (ps : PubSubSystem α) (name : String) :
    (ps.maxTopics ≤ (ps.topics.length : Int) →
       ps.newTopic name = (ps, Except.error "maximum topics reached")) ∧
    ((ps.topics.length : Int) < ps.maxTopics → (lookupKey ps.topics name).isSome →
       ps.newTopic name = (ps, Except.error "topic already exists")) ∧
    ((ps.topics.length : Int) < ps.maxTopics → lookupKey ps.topics name = none →
       ps.newTopic name
         = ({ ps with topics := setKey ps.topics name (freshTopic α name) },
            Except.ok (freshTopic α name)) ∧
       lookupKey (ps.newTopic name).1.topics name = some (freshTopic α name)) := by
  refine ⟨?_, ?_, ?_⟩
  · intro hfull
    simp [PubSubSystem.newTopic, hfull]
  · intro hroom hdup
    simp [PubSubSystem.newTopic, not_le.mpr hroom, hdup]
  · intro hroom habs
    have hmain : ps.newTopic name
        = ({ ps with topics := setKey ps.topics name (freshTopic α name) },
           Except.ok (freshTopic α name)) := by
      simp [PubSubSystem.newTopic, freshTopic, not_le.mpr hroom, habs]
    refine ⟨hmain, ?_⟩
    rw [hmain]
    exact lookupKey_setKey_self _ _ _

/-- C4 witness: all three admission branches observed on concrete registries:
a full registry rejects with the capacity error, a non-full registry rejects a
duplicate name with the name-in-use error, and a fresh name is installed. -/
theorem newTopic_admission_witness :
    psOneFull.newTopic "a" = (psOneFull, Except.error "maximum topics reached") ∧
    psS1.newTopic "a" = (psS1, Except.error "topic already exists") ∧
    lookupKey (psS1.newTopic "b").1.topics "b" = some (freshTopic Nat "b") := by
  refine ⟨(newTopic_admission psOneFull "a").1 (by decide), ?_, ?_⟩
  · exact (newTopic_admission psS1 "a").2.1 (by decide) rfl
  · exact ((newTopic_admission psS1 "b").2.2 (by decide) rfl).2

/-- C10: when the registry holds at least MaxTopics topics, NewTopic on a name
that is already present returns the capacity error "maximum topics reached"
rather than the duplicate-name error: the capacity check is evaluated before
the name-in-use check. -/
theorem newTopic_full_reports_capacity (ps : PubSubSystem α) (name : String)
    (hfull : ps.maxTopics ≤ (ps.topics.length : Int))
    (_hdup : (lookupKey ps.topics name).isSome = true) :
    ps.newTopic name = (ps, Except.error "maximum topics reached") ∧
    (ps.newTopic name).2 ≠ Except.error "topic already exists" := by
  have h : ps.newTopic name = (ps, Except.error "maximum topics reached") := by
    simp [PubSubSystem.newTopic, hfull]
  refine ⟨h, ?_⟩
  rw [h]
  intro hcontra
  injection hcontra with h2
  exact absurd h2 (by decide)

/-- C10 witness: the full one-topic registry rejects a duplicate of "a" with
the capacity error. -/
theorem newTopic_full_reports_capacity_witness :
    psOneFull.newTopic "a" = (psOneFull, Except.error "maximum topics reached") :=
  (newTopic_full_reports_capacity psOneFull "a" (by decide) rfl).1

/-- C5: DeleteTopic returns "topic not found" and leaves the registry
unchanged when the name is absent; when the name is present it removes the
topic, so a subsequent lookup of that name fails, and closes the queue and the
transport connection of every subscriber the topic contained. -/
theorem deleteTopic_spec (ps : PubSubSystem α) (name : String) :
    (lookupKey ps.topics name = none →
       ps.deleteTopic name = (ps, Except.error "topic not found", [])) ∧
    (∀ t, lookupKey ps.topics name = some t →
       (ps.deleteTopic name).2.1 = Except.ok () ∧
       lookupKey (ps.deleteTopic name).1.topics name = none ∧
       ∀ p ∈ t.subscribers,
         Effect.queueClosed p.1 ∈ (ps.deleteTopic name).2.2 ∧
         Effect.connClosed p.1 ∈ (ps.deleteTopic name).2.2) := by
  constructor
  · intro h
    simp [PubSubSystem.deleteTopic, h]
  · intro t ht
    refine ⟨?_, ?_, ?_⟩
    · simp [PubSubSystem.deleteTopic, ht]
    · simp only [PubSubSystem.deleteTopic, ht]
      exact lookupKey_eraseKey_self _ _
    · intro p hp
      constructor
      · simp only [PubSubSystem.deleteTopic, ht]
        exact List.mem_flatMap.mpr ⟨p, hp, by simp⟩
      · simp only [PubSubSystem.deleteTopic, ht]
        exact List.mem_flatMap.mpr ⟨p, hp, by simp⟩

/-- C5 witness: deleting the missing "b" fails and changes nothing; deleting
"a" makes its lookup fail and closes subscriber "s1"'s queue and connection. -/
theorem deleteTopic_spec_witness :
    psS1.deleteTopic "b" = (psS1, Except.error "topic not found", []) ∧
    lookupKey (psS1.deleteTopic "a").1.topics "a" = none ∧
    Effect.queueClosed "s1" ∈ (psS1.deleteTopic "a").2.2 ∧
    Effect.connClosed "s1" ∈ (psS1.deleteTopic "a").2.2 := by
  refine ⟨(deleteTopic_spec psS1 "b").1 rfl, ?_, ?_, ?_⟩
  · exact ((deleteTopic_spec psS1 "a").2 topicS1 rfl).2.1
  · exact (((deleteTopic_spec psS1 "a").2 topicS1 rfl).2.2 ("s1", subS1)
      (by simp [topicS1])).1
  · exact (((deleteTopic_spec psS1 "a").2 topicS1 rfl).2.2 ("s1", subS1)
      (by simp [topicS1])).2

/-- C8: unsubscribe is idempotent: on an existing topic, an unsubscribe for an
absent client id acknowledges with status "ok" and changes nothing (no queue
is closed); for a present client id it removes the subscriber and closes its
queue; removing twice equals removing once. -/
theorem unsubscribe_idempotent (ps : PubSubSystem α) (topicName clientId : String)
    (t : Topic α) (ht : lookupKey ps.topics topicName = some t)
    (htn : topicName ≠ "") (hcid : clientId ≠ "") :
    (lookupKey t.subscribers clientId = none →
       t.removeSubscriber clientId = (t, []) ∧
       (handleUnsubscribe ps topicName clientId).2.1 = Response.ack topicName "ok" ∧
       (handleUnsubscribe ps topicName clientId).2.2 = [] ∧
       lookupKey (handleUnsubscribe ps topicName clientId).1.topics topicName = some t) ∧
    (∀ s, lookupKey t.subscribers clientId = some s →
       (handleUnsubscribe ps topicName clientId).2.1 = Response.ack topicName "ok" ∧
       (handleUnsubscribe ps topicName clientId).2.2 = [Effect.queueClosed clientId] ∧
       lookupKey (t.removeSubscriber clientId).1.subscribers clientId = none) ∧
    (t.removeSubscriber clientId).1.removeSubscriber clientId
      = ((t.removeSubscriber clientId).1, []) := by
  have hnone : ∀ u : Topic α, lookupKey u.subscribers clientId = none →
      u.removeSubscriber clientId = (u, []) := by
    intro u hu
    simp [Topic.removeSubscriber, hu]
  refine ⟨?_, ?_, ?_⟩
  · intro habs
    have hr := hnone t habs
    refine ⟨hr, ?_, ?_, ?_⟩
    · simp [handleUnsubscribe, htn, hcid, ht, hr]
    · simp [handleUnsubscribe, htn, hcid, ht, hr]
    · simp only [handleUnsubscribe, htn, hcid, or_self, if_false, ht, hr]
      exact lookupKey_setKey_self _ _ _
  · intro s hs
    have hr : t.removeSubscriber clientId
        = ({ t with subscribers := eraseKey t.subscribers clientId },
           [Effect.queueClosed clientId]) := by
      simp [Topic.removeSubscriber, hs]
    refine ⟨?_, ?_, ?_⟩
    · simp [handleUnsubscribe, htn, hcid, ht, hr]
    · simp [handleUnsubscribe, htn, hcid, ht, hr]
    · rw [hr]
      exact lookupKey_eraseKey_self _ _
  · cases hc : lookupKey t.subscribers clientId with
    | none =>
      rw [hnone t hc]
      exact hnone t hc
    | some s =>
      have hr : (t.removeSubscriber clientId).1
          = { t with subscribers := eraseKey t.subscribers clientId } := by
        simp [Topic.removeSubscriber, hc]
      rw [hr]
      exact hnone _ (lookupKey_eraseKey_self _ _)

/-- C8 witness: on the concrete topic "a" with subscriber "s1", unsubscribing
the absent "zz" closes nothing, unsubscribing "s1" acknowledges and closes its
queue, and a second removal of "s1" is a no-op. -/
theorem unsubscribe_idempotent_witness :
    (handleUnsubscribe psS1 "a" "zz").2.2 = [] ∧
    (handleUnsubscribe psS1 "a" "s1").2.1 = Response.ack "a" "ok" ∧
    (handleUnsubscribe psS1 "a" "s1").2.2 = [Effect.queueClosed "s1"] ∧
    (topicS1.removeSubscriber "s1").1.removeSubscriber "s1"
      = ((topicS1.removeSubscriber "s1").1, []) := by
  refine ⟨((unsubscribe_idempotent psS1 "a" "zz" topicS1 rfl (by decide)
    (by decide)).1 rfl).2.2.1, ?_, ?_, ?_⟩
  · exact ((unsubscribe_idempotent psS1 "a" "s1" topicS1 rfl (by decide)
      (by decide)).2.1 subS1 rfl).1
  · exact ((unsubscribe_idempotent psS1 "a" "s1" topicS1 rfl (by decide)
      (by decide)).2.1 subS1 rfl).2.1
  · exact (unsubscribe_idempotent psS1 "a" "s1" topicS1 rfl (by decide)
      (by decide)).2.2

/-- A subscriber whose one-slot queue is already full. -/
def subFull : Subscriber Nat :=
  { id := "s1", topic := "t", queue := [⟨"m0", 0⟩], maxQueue := 1 }

/-- A subscriber with room left in its queue. -/
def subRoom : Subscriber Nat :=
  { id := "s2", topic := "t", queue := [], maxQueue := 1 }

/-- A topic whose subscriber "s1" has a full queue and "s2" has room. -/
def topicFull : Topic Nat :=
  { name := "t", subscribers := [("s1", subFull), ("s2", subRoom)],
    messages := [], maxMessages := 100 }

/-- C1 counterexample: broadcasting to a topic where "s1"'s queue is full
writes the SLOW_CONSUMER error and closes "s1"'s connection, yet "s1" is still
present, unchanged, in the topic's subscribers map afterwards — `Broadcast`
never removes the slow consumer from the map. -/
theorem broadcast_no_eviction_counterexample :
    (topicFull.broadcast ⟨"m1", 0⟩).2
      = [Effect.wroteError "s1" "SLOW_CONSUMER" "Subscriber queue overflow",
         Effect.connClosed "s1"] ∧
    lookupKey (topicFull.broadcast ⟨"m1", 0⟩).1.subscribers "s1" = some subFull := by
  constructor <;> rfl

/-- C1 amended: on broadcast, every snapshotted subscriber whose queue is full
synchronously gets the terminal error record
{code: SLOW_CONSUMER, message: Subscriber queue overflow} written to its
connection and its connection closed, while the enqueue to every snapshotted
subscriber with room still takes place; but the slow consumer is not removed
from the topic's subscribers map — its entry survives unchanged and the map's
key sequence is preserved. -/
theorem broadcast_slow_consumer (t : Topic α) (msg : Message α)
    (k : String) (s : Subscriber α) (hmem : (k, s) ∈ t.subscribers) :
    (s.maxQueue ≤ s.queue.length →
       Effect.wroteError k "SLOW_CONSUMER" "Subscriber queue overflow"
           ∈ (t.broadcast msg).2 ∧
       Effect.connClosed k ∈ (t.broadcast msg).2 ∧
       (k, s) ∈ (t.broadcast msg).1.subscribers) ∧
    (s.queue.length < s.maxQueue →
       (k, { s with queue := s.queue ++ [msg] }) ∈ (t.broadcast msg).1.subscribers) ∧
    (t.broadcast msg).1.subscribers.map Prod.fst = t.subscribers.map Prod.fst := by
  refine ⟨?_, ?_, ?_⟩
  · intro hfull
    have hts : trySend s msg = (s, false) := by
      simp [trySend, Nat.not_lt.mpr hfull]
    refine ⟨?_, ?_, ?_⟩
    · exact List.mem_flatMap.mpr ⟨(k, s), hmem, by simp [hts]⟩
    · exact List.mem_flatMap.mpr ⟨(k, s), hmem, by simp [hts]⟩
    · exact List.mem_map.mpr ⟨(k, s), hmem, by simp [hts]⟩
  · intro hroom
    have hts : trySend s msg = ({ s with queue := s.queue ++ [msg] }, true) := by
      simp [trySend, hroom]
    exact List.mem_map.mpr ⟨(k, s), hmem, by simp [hts]⟩
  · simp [Topic.broadcast, List.map_map, Function.comp]

/-- C1 witness: on the concrete topic, the full subscriber "s1" gets the error
and the close and stays in the map, and "s2" still receives the message. -/
theorem broadcast_slow_consumer_witness :
    Effect.wroteError "s1" "SLOW_CONSUMER" "Subscriber queue overflow"
        ∈ (topicFull.broadcast ⟨"m1", 0⟩).2 ∧
    Effect.connClosed "s1" ∈ (topicFull.broadcast ⟨"m1", 0⟩).2 ∧
    ("s1", subFull) ∈ (topicFull.broadcast ⟨"m1", 0⟩).1.subscribers ∧
    ("s2", { subRoom with queue := [⟨"m1", 0⟩] })
        ∈ (topicFull.broadcast ⟨"m1", 0⟩).1.subscribers := by
  have h1 := broadcast_slow_consumer topicFull ⟨"m1", 0⟩ "s1" subFull (by simp [topicFull])
  have h2 := broadcast_slow_consumer topicFull ⟨"m1", 0⟩ "s2" subRoom (by simp [topicFull])
  exact ⟨(h1.1 (by decide)).1, (h1.1 (by decide)).2.1, (h1.1 (by decide)).2.2,
    h2.2.1 (by decide)⟩

/-- Hexadecimal digit test, as in google/uuid's `xtob` byte table. -/
def isHexDigit (c : Char) : Bool :=
  c.isDigit || ('a' ≤ c && c ≤ 'f') || ('A' ≤ c && c ≤ 'F')

/-- The canonical 36-character UUID shape checked by google/uuid's `Parse`:
hyphens at offsets 8, 13, 18 and 23, hex digits at the other 32 offsets. -/
def canonicalUUID : List Char → Bool
  | a1 :: a2 :: a3 :: a4 :: a5 :: a6 :: a7 :: a8 :: '-' ::
    b1 :: b2 :: b3 :: b4 :: '-' ::
    c1 :: c2 :: c3 :: c4 :: '-' ::
    d1 :: d2 :: d3 :: d4 :: '-' ::
    e1 :: e2 :: e3 :: e4 :: e5 :: e6 :: e7 :: e8 :: e9 :: e10 :: e11 :: e12 :: [] =>
      [a1, a2, a3, a4, a5, a6, a7, a8, b1, b2, b3, b4, c1, c2, c3, c4,
       d1, d2, d3, d4, e1, e2, e3, e4, e5, e6, e7, e8, e9, e10, e11,
       e12].all isHexDigit
  | _ => false

/-- google/uuid `Parse` accepts four shapes: canonical (length 36),
urn-prefixed (45, case-insensitive prefix), brace-wrapped (38 — the library
strips only the leading character and never inspects the final one, which is
reproduced faithfully here), and bare 32 hex digits. -/
def uuidParseOk (s : String) : Bool :=
  let cs := s.toList
  if cs.length = 36 then canonicalUUID cs
  else if cs.length = 45 then
    decide ((cs.take 9).map Char.toLower = "urn:uuid:".toList) &&
      canonicalUUID (cs.drop 9)
  else if cs.length = 38 then canonicalUUID ((cs.drop 1).take 36)
  else if cs.length = 32 then cs.all isHexDigit
  else false

/-- Hex digit characters for rendering. -/
def hexChar (n : Nat) : Char := "0123456789abcdef".toList.getD n 'x'

/-- Models `uuid.New().String()`: the canonical rendering of 16 random bytes.
The randomness is abstracted as a seed whose base-16 digits supply the 32
nibbles; the version and variant bits do not affect the syntax. -/
def uuidNewString (seed : Nat) : String :=
  let nib := fun (i : Nat) => hexChar (seed / 16 ^ i % 16)
  String.mk [nib 0, nib 1, nib 2, nib 3, nib 4, nib 5, nib 6, nib 7, '-',
    nib 8, nib 9, nib 10, nib 11, '-', nib 12, nib 13, nib 14, nib 15, '-',
    nib 16, nib 17, nib 18, nib 19, '-', nib 20, nib 21, nib 22, nib 23,
    nib 24, nib 25, nib 26, nib 27, nib 28, nib 29, nib 30, nib 31]

theorem isHexDigit_hexChar (n : Nat) : isHexDigit (hexChar (n % 16)) = true := by
  have h : n % 16 < 16 := Nat.mod_lt _ (by norm_num)
  have hall : ∀ k < 16, isHexDigit (hexChar k) = true := by decide
  exact hall _ h

theorem uuidNewString_valid (seed : Nat) : uuidParseOk (uuidNewString seed) = true := by
  unfold uuidParseOk uuidNewString
  simp [canonicalUUID, isHexDigit_hexChar]

/-- Result of `WebSocketHandler.handlePublish`: an error envelope or an ack;
the ack carries the admitted message whose id is final. -/
inductive PublishOutcome (α : Type) where
  | err (code : String) (emsg : String)
  | ack (admitted : Message α)
deriving Repr, DecidableEq

/-- The part of `handlePublish` that runs after id validation: topic lookup,
history append (`AddMessage`), fan-out (`Broadcast`), ack. -/
def publishAdmitted (ps : PubSubSystem α) (topicName : String) (m : Message α) :
    PubSubSystem α × PublishOutcome α × List Effect :=
  match lookupKey ps.topics topicName with
  | none => (ps, PublishOutcome.err "TOPIC_NOT_FOUND" "Topic does not exist", [])
  | some t =>
    let t1 := (t.addMessage m).broadcast m
    ({ ps with topics := setKey ps.topics topicName t1.1 },
     PublishOutcome.ack m, t1.2)

/-- Go `WebSocketHandler.handlePublish` (handlers/websocket.go): missing topic
or message is BAD_REQUEST; an empty message id receives a freshly generated
UUID; a non-empty id that does not parse is BAD_REQUEST before any state
change; then the topic is resolved and the message appended and broadcast. -/
def handlePublish (ps : PubSubSystem α) (topicName : String)
    (message : Option (Message α)) (seed : Nat) :
    PubSubSystem α × PublishOutcome α × List Effect :=
  match message with
  | none => (ps, PublishOutcome.err "BAD_REQUEST" "Topic and message are required", [])
  | some m0 =>
    if topicName = "" then
      (ps, PublishOutcome.err "BAD_REQUEST" "Topic and message are required", [])
    else if m0.id = "" then
      publishAdmitted ps topicName { m0 with id := uuidNewString seed }
    else if uuidParseOk m0.id then
      publishAdmitted ps topicName m0
    else
      (ps, PublishOutcome.err "BAD_REQUEST" "message.id must be a valid UUID", [])

theorem broadcast_enqueue_mem (t : Topic α) (msg : Message α) (k : String)
    (s : Subscriber α) (hmem : (k, s) ∈ t.subscribers)
    (hroom : s.queue.length < s.maxQueue) :
    (k, { s with queue := s.queue ++ [msg] }) ∈ (t.broadcast msg).1.subscribers := by
  have hts : trySend s msg = ({ s with queue := s.queue ++ [msg] }, true) := by
    simp [trySend, hroom]
  exact List.mem_map.mpr ⟨(k, s), hmem, by simp [hts]⟩

theorem addMessage_getLast (t : Topic α) (m : Message α) (hmax : 0 < t.maxMessages) :
    (t.addMessage m).messages.getLast? = some m := by
  simp only [Topic.addMessage]
  split
  · rename_i hgt
    simp only [List.length_append, List.length_singleton] at hgt
    cases hm : t.messages with
    | nil =>
      rw [hm] at hgt
      simp at hgt
      omega
    | cons x xs =>
      simp [List.cons_append, List.tail_cons, List.getLast?_concat]
  · exact List.getLast?_concat _

/-- C6: a publish whose message id is non-empty but not a syntactically valid
UUID is answered with the BAD_REQUEST error envelope and causes no history
append, no fan-out and no state change; a publish whose id is empty gets a
freshly generated syntactically valid UUID assigned before the append and the
fan-out, so the history entry and every enqueued copy carry that UUID. -/
theorem publish_uuid_validation (ps : PubSubSystem α) (topicName : String)
    (m : Message α) (seed : Nat) (htn : topicName ≠ "") :
    (m.id ≠ "" → uuidParseOk m.id = false →
       handlePublish ps topicName (some m) seed
         = (ps, PublishOutcome.err "BAD_REQUEST" "message.id must be a valid UUID", [])) ∧
    (m.id = "" →
       uuidParseOk (uuidNewString seed) = true ∧
       ∀ t, lookupKey ps.topics topicName = some t →
         (handlePublish ps topicName (some m) seed).2.1
             = PublishOutcome.ack { m with id := uuidNewString seed } ∧
           (handlePublish ps topicName (some m) seed).1.topics
             = setKey ps.topics topicName
                 ((t.addMessage { m with id := uuidNewString seed }).broadcast
                   { m with id := uuidNewString seed }).1 ∧
           (0 < t.maxMessages →
             ((t.addMessage { m with id := uuidNewString seed }).broadcast
                 { m with id := uuidNewString seed }).1.messages.getLast?
               = some { m with id := uuidNewString seed }) ∧
           (∀ k s, (k, s) ∈ t.subscribers → s.queue.length < s.maxQueue →
             (k, { s with queue := s.queue ++ [{ m with id := uuidNewString seed }] })
               ∈ ((t.addMessage { m with id := uuidNewString seed }).broadcast
                   { m with id := uuidNewString seed }).1.subscribers)) := by
  constructor
  · intro hid hbad
    simp [handlePublish, htn, hid, hbad]
  · intro hid
    refine ⟨uuidNewString_valid seed, ?_⟩
    intro t ht
    have hred : handlePublish ps topicName (some m) seed
        = publishAdmitted ps topicName { m with id := uuidNewString seed } := by
      simp [handlePublish, htn, hid]
    refine ⟨?_, ?_, ?_, ?_⟩
    · rw [hred]
      simp [publishAdmitted, ht]
    · rw [hred]
      simp [publishAdmitted, ht]
    · intro hmax
      have hb : ((t.addMessage { m with id := uuidNewString seed }).broadcast
          { m with id := uuidNewString seed }).1.messages
          = (t.addMessage { m with id := uuidNewString seed }).messages := rfl
      rw [hb]
      exact addMessage_getLast t _ hmax
    · intro k s hmem hroom
      have hsub : (t.addMessage { m with id := uuidNewString seed }).subscribers
          = t.subscribers := rfl
      exact broadcast_enqueue_mem _ _ k s (by rw [hsub]; exact hmem) hroom

/-- C6 witness: on the registry holding topic "a" with subscriber "s1",
publishing id "not-a-uuid" is rejected with BAD_REQUEST and no state change,
while publishing with an empty id acks a message carrying the generated UUID,
which exists as valid, lands at the end of the history and in "s1"'s queue. -/
theorem publish_uuid_validation_witness :
    handlePublish psS1 "a" (some ⟨"not-a-uuid", 0⟩) 0
      = (psS1, PublishOutcome.err "BAD_REQUEST" "message.id must be a valid UUID", []) ∧
    uuidParseOk (uuidNewString 0) = true ∧
    (handlePublish psS1 "a" (some ⟨"", 0⟩) 0).2.1
      = PublishOutcome.ack ⟨uuidNewString 0, 0⟩ ∧
    ((topicS1.addMessage ⟨uuidNewString 0, 0⟩).broadcast
        ⟨uuidNewString 0, 0⟩).1.messages.getLast? = some ⟨uuidNewString 0, 0⟩ ∧
    ("s1", { subS1 with queue := [⟨uuidNewString 0, 0⟩] })
      ∈ ((topicS1.addMessage ⟨uuidNewString 0, 0⟩).broadcast
          ⟨uuidNewString 0, 0⟩).1.subscribers := by
  have hbad := (publish_uuid_validation psS1 "a" ⟨"not-a-uuid", 0⟩ 0 (by decide)).1
  have hok := (publish_uuid_validation psS1 "a" ⟨"", 0⟩ 0 (by decide)).2
  refine ⟨hbad (by decide) (by decide), (hok rfl).1, ?_, ?_, ?_⟩
  · exact ((hok rfl).2 topicS1 rfl).1
  · exact ((hok rfl).2 topicS1 rfl).2.2.1 (by decide)
  · exact ((hok rfl).2 topicS1 rfl).2.2.2 "s1" subS1 (by simp [topicS1]) (by decide)

/-- An environment that sets only TOPIC_HISTORY_SIZE, to 5. -/
def envHist5 : String → String := fun k => if k = "TOPIC_HISTORY_SIZE" then "5" else ""

theorem managerAddMessage_messages (env : String → String) (t : Topic α) (m : Message α)
    (hH : 0 ≤ getEnvInt env "TOPIC_HISTORY_SIZE" 100)
    (h : (t.messages.length : Int) ≤ getEnvInt env "TOPIC_HISTORY_SIZE" 100) :
    (TopicManager.addMessage env t m).messages
      = (t.messages ++ [m]).drop
          (t.messages.length + 1 - (getEnvInt env "TOPIC_HISTORY_SIZE" 100).toNat) := by
  simp only [TopicManager.addMessage]
  split
  · rename_i hgt
    rw [← List.drop_one]
    congr 1
    simp only [List.length_append, List.length_singleton] at hgt
    omega
  · rename_i hle
    simp only [List.length_append, List.length_singleton, not_lt] at hle
    have hz : t.messages.length + 1 - (getEnvInt env "TOPIC_HISTORY_SIZE" 100).toNat = 0 := by
      omega
    rw [hz, List.drop_zero]

theorem managerAddMessage_length_le (env : String → String) (t : Topic α) (m : Message α)
    (h : (t.messages.length : Int) ≤ getEnvInt env "TOPIC_HISTORY_SIZE" 100) :
    ((TopicManager.addMessage env t m).messages.length : Int)
      ≤ getEnvInt env "TOPIC_HISTORY_SIZE" 100 := by
  simp only [TopicManager.addMessage]
  split
  · rename_i hgt
    simp only [List.length_tail, List.length_append, List.length_singleton] at hgt ⊢
    omega
  · rename_i hle
    simp only [List.length_append, List.length_singleton, not_lt] at hle ⊢
    omega

theorem foldl_managerAddMessage (env : String → String) (msgs : List (Message α))
    (t : Topic α) (hH : 0 ≤ getEnvInt env "TOPIC_HISTORY_SIZE" 100)
    (h : (t.messages.length : Int) ≤ getEnvInt env "TOPIC_HISTORY_SIZE" 100) :
    (msgs.foldl (TopicManager.addMessage env) t).messages
      = (t.messages ++ msgs).drop
          (t.messages.length + msgs.length
            - (getEnvInt env "TOPIC_HISTORY_SIZE" 100).toNat) := by
  induction msgs generalizing t with
  | nil =>
    simp only [List.foldl_nil, List.append_nil, List.length_nil, Nat.add_zero]
    have hz : t.messages.length - (getEnvInt env "TOPIC_HISTORY_SIZE" 100).toNat = 0 := by
      omega
    rw [hz, List.drop_zero]
  | cons m rest ih =>
    rw [List.foldl_cons]
    have h1 : ((TopicManager.addMessage env t m).messages.length : Int)
        ≤ getEnvInt env "TOPIC_HISTORY_SIZE" 100 := managerAddMessage_length_le env t m h
    rw [ih _ h1, managerAddMessage_messages env t m hH h]
    have hd : t.messages.length + 1 - (getEnvInt env "TOPIC_HISTORY_SIZE" 100).toNat
        ≤ (t.messages ++ [m]).length := by
      simp only [List.length_append, List.length_singleton]
      omega
    rw [← List.drop_append_of_le_length hd, List.drop_drop]
    have hlist : (t.messages ++ [m]) ++ rest = t.messages ++ m :: rest := by
      rw [List.append_assoc, List.singleton_append]
    rw [hlist]
    have hidx : (t.messages.length + 1 - (getEnvInt env "TOPIC_HISTORY_SIZE" 100).toNat)
          + (((t.messages ++ [m]).drop
                (t.messages.length + 1
                  - (getEnvInt env "TOPIC_HISTORY_SIZE" 100).toNat)).length
              + rest.length - (getEnvInt env "TOPIC_HISTORY_SIZE" 100).toNat)
        = t.messages.length + (m :: rest).length
            - (getEnvInt env "TOPIC_HISTORY_SIZE" 100).toNat := by
      simp only [List.length_drop, List.length_append, List.length_singleton,
        List.length_cons, List.length_nil]
      omega
    rw [hidx]

/-- C9: the four limits used by the broker are the integer values of the
correspondingly named environment variables when set and parseable and 100
otherwise: the broker's topic cap is MAX_TOPICS, the per-topic cap enforced
on subscribe is MAX_SUBSCRIBERS_PER_TOPIC, the history bound enforced on
publish is TOPIC_HISTORY_SIZE (starting from an empty history, the retained
suffix has length min(K, configured value)), and each new subscriber's queue
capacity is SUBSCRIBER_QUEUE_SIZE; the capacity conjuncts assume the
configured value is non-negative, as a negative channel capacity panics. -/
theorem config_limits (env : String → String) (α : Type) :
    (∀ k d, env k ≠ "" → ∀ n, atoi (env k) = some n → getEnvInt env k d = n) ∧
    (∀ k d, env k = "" ∨ atoi (env k) = none → getEnvInt env k d = d) ∧
    (newPubSubSystem α env).maxTopics = getEnvInt env "MAX_TOPICS" 100 ∧
    (newPubSubSystem α env).maxSubscribers
        = getEnvInt env "MAX_SUBSCRIBERS_PER_TOPIC" 100 ∧
    (∀ t : Topic α, ∀ sub,
        getEnvInt env "MAX_SUBSCRIBERS_PER_TOPIC" 100 ≤ (t.subscribers.length : Int) →
        TopicManager.addSubscriber env t sub
          = Except.error "maximum subscribers reached for topic") ∧
    (∀ t : Topic α, ∀ sub,
        (t.subscribers.length : Int) < getEnvInt env "MAX_SUBSCRIBERS_PER_TOPIC" 100 →
        TopicManager.addSubscriber env t sub
          = Except.ok { t with subscribers := setKey t.subscribers sub.id sub }) ∧
    (0 ≤ getEnvInt env "SUBSCRIBER_QUEUE_SIZE" 100 →
        ∀ id tn, ((SubscriberManager.newSubscriber α env id tn).maxQueue : Int)
          = getEnvInt env "SUBSCRIBER_QUEUE_SIZE" 100) ∧
    (0 ≤ getEnvInt env "TOPIC_HISTORY_SIZE" 100 →
        ∀ (t : Topic α) (msgs : List (Message α)), t.messages = [] →
          (msgs.foldl (TopicManager.addMessage env) t).messages
              = msgs.drop (msgs.length - (getEnvInt env "TOPIC_HISTORY_SIZE" 100).toNat) ∧
          (msgs.foldl (TopicManager.addMessage env) t).messages.length
              = min msgs.length (getEnvInt env "TOPIC_HISTORY_SIZE" 100).toNat) := by
  refine ⟨?_, ?_, rfl, rfl, ?_, ?_, ?_, ?_⟩
  · intro k d hne n hatoi
    simp [getEnvInt, hne, hatoi]
  · intro k d hcase
    rcases hcase with hcase | hcase
    · simp [getEnvInt, hcase]
    · by_cases hne : env k = ""
      · simp [getEnvInt, hne]
      · simp [getEnvInt, hne, hcase]
  · intro t sub hcap
    simp [TopicManager.addSubscriber, hcap]
  · intro t sub hroom
    simp [TopicManager.addSubscriber, not_le.mpr hroom]
  · intro h0 id tn
    simp only [SubscriberManager.newSubscriber]
    omega
  · intro hH t msgs hempty
    have hfold := foldl_managerAddMessage env msgs t hH (by rw [hempty]; simpa using hH)
    rw [hempty] at hfold
    simp only [List.nil_append, List.length_nil, Nat.zero_add] at hfold
    refine ⟨hfold, ?_⟩
    rw [hfold]
    simp only [List.length_drop]
    omega

/-- C9 witness: on the environment setting TOPIC_HISTORY_SIZE=5, the parsed
limit is 5 and seven publications through the wired AddMessage retain exactly
5 messages, while the unset SUBSCRIBER_QUEUE_SIZE defaults the new
subscriber's queue capacity to 100. -/
theorem config_limits_witness :
    getEnvInt envHist5 "TOPIC_HISTORY_SIZE" 100 = 5 ∧
    ((List.replicate 7 (⟨"m", 0⟩ : Message Nat)).foldl
        (TopicManager.addMessage envHist5) topicA).messages.length = 5 ∧
    ((SubscriberManager.newSubscriber Nat envHist5 "s1" "a").maxQueue : Int)
      = getEnvInt envHist5 "SUBSCRIBER_QUEUE_SIZE" 100 := by
  have h := config_limits envHist5 Nat
  refine ⟨?_, ?_, ?_⟩
  · exact h.1 "TOPIC_HISTORY_SIZE" 100 (by decide) 5 rfl
  · have h7 := h.2.2.2.2.2.2.2 (by decide) topicA (List.replicate 7 ⟨"m", 0⟩) rfl
    rw [h7.2]
    decide
  · exact h.2.2.2.2.2.2.1 (by decide) "s1" "a"

/-- The state effect of the served publish path once the message is admitted:
resolve the topic, then wired `TopicManager.AddMessage` followed by
`TopicManager.Broadcast` (identical to `Topic.broadcast`). -/
def publishFanout (env : String → String) (ps : PubSubSystem α) (tn : String)
    (m : Message α) : PubSubSystem α :=
  match lookupKey ps.topics tn with
  | none => ps
  | some t =>
    { ps with topics := setKey ps.topics tn ((TopicManager.addMessage env t m).broadcast m).1 }

/-- Client-visible operations that mutate broker state, as dispatched by the
session handler (subscribe/unsubscribe/publish) and the management surface
(create/delete). -/
inductive Op (α : Type) where
  | createTopic (name : String)
  | deleteTopic (name : String)
  | subscribe (topicName clientId : String)
  | unsubscribe (topicName clientId : String)
  | publish (topicName : String) (msg : Message α) (seed : Nat)

/-- The state transition of one operation, ignoring responses and effects:
`NewTopic`, `DeleteTopic`, the served subscribe path (SubscriberManager
NewSubscriber + TopicManager AddSubscriber, no change on rejection),
`handleUnsubscribe`, and the served publish path (id validation, then
TopicManager AddMessage and Broadcast via `publishFanout`). -/
def step (env : String → String) (ps : PubSubSystem α) : Op α → PubSubSystem α
  | Op.createTopic name => (ps.newTopic name).1
  | Op.deleteTopic name => (ps.deleteTopic name).1
  | Op.subscribe tn cid =>
    match lookupKey ps.topics tn with
    | none => ps
    | some t =>
      match TopicManager.addSubscriber env t (SubscriberManager.newSubscriber α env cid tn) with
      | Except.error _ => ps
      | Except.ok t2 => { ps with topics := setKey ps.topics tn t2 }
  | Op.unsubscribe tn cid => (handleUnsubscribe ps tn cid).1
  | Op.publish tn msg seed =>
    if tn = "" then ps
    else if msg.id = "" then publishFanout env ps tn { msg with id := uuidNewString seed }
    else if uuidParseOk msg.id then publishFanout env ps tn msg
    else ps

/-- Broker caps invariant: the configured topic cap is intact, the registry
respects it, and every topic respects the configured per-topic subscriber
cap. -/
def capsInvariant (env : String → String) (mt : Int) (ps : PubSubSystem α) : Prop :=
  ps.maxTopics = mt ∧
  (ps.topics.length : Int) ≤ mt ∧
  ∀ p ∈ ps.topics,
    (p.2.subscribers.length : Int) ≤ getEnvInt env "MAX_SUBSCRIBERS_PER_TOPIC" 100

theorem broadcast_subscribers_length (t : Topic α) (m : Message α) :
    (t.broadcast m).1.subscribers.length = t.subscribers.length := by
  simp [Topic.broadcast]

theorem publishFanout_caps (env : String → String) (mt : Int) (ps : PubSubSystem α)
    (tn : String) (m2 : Message α) (h : capsInvariant env mt ps) :
    capsInvariant env mt (publishFanout env ps tn m2) := by
  cases hl : lookupKey ps.topics tn with
  | none => simpa [publishFanout, hl] using h
  | some t =>
    have hstep : publishFanout env ps tn m2
        = PubSubSystem.mk
            (setKey ps.topics tn ((TopicManager.addMessage env t m2).broadcast m2).1)
            ps.maxTopics ps.maxSubscribers := by
      simp [publishFanout, hl]
    rw [hstep]
    refine ⟨h.1, ?_, ?_⟩
    · have hlen2 : (setKey ps.topics tn
          ((TopicManager.addMessage env t m2).broadcast m2).1).length
          = ps.topics.length := by
        rw [length_setKey]
        simp [hl]
      show ((setKey ps.topics tn
          ((TopicManager.addMessage env t m2).broadcast m2).1).length : Int) ≤ mt
      rw [hlen2]
      exact h.2.1
    · intro p hp
      rcases mem_setKey _ _ _ _ hp with hp1 | hp1
      · have hblen : ((TopicManager.addMessage env t m2).broadcast m2).1.subscribers.length
            = t.subscribers.length := broadcast_subscribers_length _ _
        have ht100 : (t.subscribers.length : Int)
            ≤ getEnvInt env "MAX_SUBSCRIBERS_PER_TOPIC" 100 :=
          h.2.2 (tn, t) (lookupKey_mem _ _ _ hl)
        rw [hp1]
        show (((TopicManager.addMessage env t m2).broadcast m2).1.subscribers.length : Int)
          ≤ getEnvInt env "MAX_SUBSCRIBERS_PER_TOPIC" 100
        omega
      · exact h.2.2 p hp1

theorem step_preserves_caps (env : String → String) (mt : Int) (ps : PubSubSystem α)
    (op : Op α) (hms : 0 ≤ getEnvInt env "MAX_SUBSCRIBERS_PER_TOPIC" 100)
    (h : capsInvariant env mt ps) : capsInvariant env mt (step env ps op) := by
  cases op with
  | createTopic name =>
    by_cases hfull : ps.maxTopics ≤ (ps.topics.length : Int)
    · simpa [step, PubSubSystem.newTopic, hfull] using h
    · by_cases hdup : (lookupKey ps.topics name).isSome
      · simpa [step, PubSubSystem.newTopic, hfull, hdup] using h
      · have hstep : step env ps (Op.createTopic name)
            = { ps with topics := setKey ps.topics name (freshTopic α name) } := by
          simp [step, PubSubSystem.newTopic, hfull, hdup, freshTopic]
        rw [hstep]
        refine ⟨h.1, ?_, ?_⟩
        · have hlen2 : (setKey ps.topics name (freshTopic α name)).length
              = ps.topics.length + 1 := by
            rw [length_setKey]
            simp [hdup]
          show ((setKey ps.topics name (freshTopic α name)).length : Int) ≤ mt
          rw [hlen2]
          have h1 := h.1
          have h3 := not_le.mp hfull
          rw [h1] at h3
          push_cast
          omega
        · intro p hp
          rcases mem_setKey _ _ _ _ hp with hp1 | hp1
          · rw [hp1]
            simpa [freshTopic] using hms
          · exact h.2.2 p hp1
  | deleteTopic name =>
    cases hl : lookupKey ps.topics name with
    | none => simpa [step, PubSubSystem.deleteTopic, hl] using h
    | some t =>
      have hstep : step env ps (Op.deleteTopic name)
          = { ps with topics := eraseKey ps.topics name } := by
        simp [step, PubSubSystem.deleteTopic, hl]
      rw [hstep]
      refine ⟨h.1, ?_, ?_⟩
      · have hle : (eraseKey ps.topics name).length ≤ ps.topics.length :=
          List.length_filter_le _ _
        have h2 := h.2.1
        show ((eraseKey ps.topics name).length : Int) ≤ mt
        omega
      · intro p hp
        exact h.2.2 p (List.mem_of_mem_filter hp)
  | subscribe tn cid =>
    cases hl : lookupKey ps.topics tn with
    | none => simpa [step, hl] using h
    | some t =>
      by_cases hcap : getEnvInt env "MAX_SUBSCRIBERS_PER_TOPIC" 100
          ≤ (t.subscribers.length : Int)
      · simpa [step, hl, TopicManager.addSubscriber, hcap] using h
      · have hok : TopicManager.addSubscriber env t (SubscriberManager.newSubscriber α env cid tn)
            = Except.ok (Topic.mk t.name
                (setKey t.subscribers cid (SubscriberManager.newSubscriber α env cid tn))
                t.messages t.maxMessages) := by
          simp [TopicManager.addSubscriber, hcap, SubscriberManager.newSubscriber]
        have hstep : step env ps (Op.subscribe tn cid)
            = PubSubSystem.mk
                (setKey ps.topics tn (Topic.mk t.name
                  (setKey t.subscribers cid (SubscriberManager.newSubscriber α env cid tn))
                  t.messages t.maxMessages))
                ps.maxTopics ps.maxSubscribers := by
          simp [step, hl, hok]
        rw [hstep]
        refine ⟨h.1, ?_, ?_⟩
        · have hlen2 : (setKey ps.topics tn (Topic.mk t.name
              (setKey t.subscribers cid (SubscriberManager.newSubscriber α env cid tn))
              t.messages t.maxMessages)).length = ps.topics.length := by
            rw [length_setKey]
            simp [hl]
          show ((setKey ps.topics tn (Topic.mk t.name
              (setKey t.subscribers cid (SubscriberManager.newSubscriber α env cid tn))
              t.messages t.maxMessages)).length : Int) ≤ mt
          rw [hlen2]
          exact h.2.1
        · intro p hp
          rcases mem_setKey _ _ _ _ hp with hp1 | hp1
          · rw [hp1]
            show ((setKey t.subscribers cid
                (SubscriberManager.newSubscriber α env cid tn)).length : Int)
              ≤ getEnvInt env "MAX_SUBSCRIBERS_PER_TOPIC" 100
            rw [length_setKey]
            by_cases hc : (lookupKey t.subscribers cid).isSome <;> simp [hc] <;> omega
          · exact h.2.2 p hp1
  | unsubscribe tn cid =>
    by_cases hempty : tn = "" ∨ cid = ""
    · simpa [step, handleUnsubscribe, hempty] using h
    · push_neg at hempty
      cases hl : lookupKey ps.topics tn with
      | none => simpa [step, handleUnsubscribe, hempty.1, hempty.2, hl] using h
      | some t =>
        have hstep : step env ps (Op.unsubscribe tn cid)
            = { ps with topics := setKey ps.topics tn (t.removeSubscriber cid).1 } := by
          simp [step, handleUnsubscribe, hempty.1, hempty.2, hl]
        rw [hstep]
        refine ⟨h.1, ?_, ?_⟩
        · have hlen2 : (setKey ps.topics tn (t.removeSubscriber cid).1).length
              = ps.topics.length := by
            rw [length_setKey]
            simp [hl]
          show ((setKey ps.topics tn (t.removeSubscriber cid).1).length : Int) ≤ mt
          rw [hlen2]
          exact h.2.1
        · intro p hp
          rcases mem_setKey _ _ _ _ hp with hp1 | hp1
          · have hrsub : (t.removeSubscriber cid).1.subscribers.length
                ≤ t.subscribers.length := by
              cases hc : lookupKey t.subscribers cid with
              | none => simp [Topic.removeSubscriber, hc]
              | some s =>
                simp only [Topic.removeSubscriber, hc, eraseKey]
                exact List.length_filter_le _ _
            have ht100 : (t.subscribers.length : Int)
                ≤ getEnvInt env "MAX_SUBSCRIBERS_PER_TOPIC" 100 :=
              h.2.2 (tn, t) (lookupKey_mem _ _ _ hl)
            rw [hp1]
            show ((t.removeSubscriber cid).1.subscribers.length : Int)
              ≤ getEnvInt env "MAX_SUBSCRIBERS_PER_TOPIC" 100
            omega
          · exact h.2.2 p hp1
  | publish tn msg seed =>
    by_cases htn : tn = ""
    · simpa [step, htn] using h
    · by_cases hid : msg.id = ""
      · have hstep : step env ps (Op.publish tn msg seed)
            = publishFanout env ps tn { msg with id := uuidNewString seed } := by
          simp [step, htn, hid]
        rw [hstep]
        exact publishFanout_caps env mt ps tn _ h
      · by_cases hv : uuidParseOk msg.id
        · have hstep : step env ps (Op.publish tn msg seed)
              = publishFanout env ps tn msg := by
            simp [step, htn, hid, hv]
          rw [hstep]
          exact publishFanout_caps env mt ps tn _ h
        · simpa [step, htn, hid, hv] using h

theorem foldl_step_caps (env : String → String) (mt : Int) (ops : List (Op α))
    (ps : PubSubSystem α) (hms : 0 ≤ getEnvInt env "MAX_SUBSCRIBERS_PER_TOPIC" 100)
    (h : capsInvariant env mt ps) : capsInvariant env mt (ops.foldl (step env) ps) := by
  induction ops generalizing ps with
  | nil => exact h
  | cons op rest ih => exact ih _ (step_preserves_caps env mt ps op hms h)

/-- 100 subscribers named s0 .. s99. -/
def subs100 : List (String × Subscriber Nat) :=
  (List.range 100).map (fun i => ("s" ++ toString i,
    { id := "s" ++ toString i, topic := "t", queue := [], maxQueue := 100 }))

/-- A topic that holds exactly 100 subscribers. -/
def topic100 : Topic Nat :=
  { name := "t", subscribers := subs100, messages := [], maxMessages := 100 }

/-- C7: every broker state reachable from a freshly configured broker keeps
|topics| ≤ MAX_TOPICS and every topic's subscriber count ≤
MAX_SUBSCRIBERS_PER_TOPIC, for the configured values of both caps (assumed
non-negative); in particular the served subscribe path rejects with the
capacity error exactly when the topic's subscriber count is at least
MAX_SUBSCRIBERS_PER_TOPIC, and inserts the subscriber otherwise. -/
theorem reachable_caps (α : Type) (env : String → String) (ops : List (Op α))
    (hmt : 0 ≤ getEnvInt env "MAX_TOPICS" 100)
    (hms : 0 ≤ getEnvInt env "MAX_SUBSCRIBERS_PER_TOPIC" 100) :
    ((ops.foldl (step env) (newPubSubSystem α env)).topics.length : Int)
        ≤ getEnvInt env "MAX_TOPICS" 100 ∧
    (∀ p ∈ (ops.foldl (step env) (newPubSubSystem α env)).topics,
        (p.2.subscribers.length : Int) ≤ getEnvInt env "MAX_SUBSCRIBERS_PER_TOPIC" 100) ∧
    (∀ t : Topic α, ∀ sub,
        getEnvInt env "MAX_SUBSCRIBERS_PER_TOPIC" 100 ≤ (t.subscribers.length : Int) →
        TopicManager.addSubscriber env t sub
          = Except.error "maximum subscribers reached for topic") ∧
    (∀ t : Topic α, ∀ sub,
        (t.subscribers.length : Int) < getEnvInt env "MAX_SUBSCRIBERS_PER_TOPIC" 100 →
        TopicManager.addSubscriber env t sub
          = Except.ok { t with subscribers := setKey t.subscribers sub.id sub }) := by
  have hinit : capsInvariant env (getEnvInt env "MAX_TOPICS" 100)
      (newPubSubSystem α env) := by
    refine ⟨rfl, ?_, ?_⟩
    · simpa [newPubSubSystem] using hmt
    · intro p hp
      simp [newPubSubSystem] at hp
  have hfold := foldl_step_caps env _ ops _ hms hinit
  refine ⟨hfold.2.1, hfold.2.2, ?_, ?_⟩
  · intro t sub hcap
    simp [TopicManager.addSubscriber, hcap]
  · intro t sub hroom
    simp [TopicManager.addSubscriber, not_le.mpr hroom]

/-- C7 witness: two operations on a default-configured broker keep the caps;
under the default cap 100, the topic with 100 subscribers rejects the next
subscribe with the capacity error while the one-subscriber topic accepts
one. -/
theorem reachable_caps_witness :
    ((([Op.createTopic "a", Op.subscribe "a" "s1"] : List (Op Nat)).foldl
        (step (fun _ => "")) (newPubSubSystem Nat (fun _ => ""))).topics.length : Int)
      ≤ getEnvInt (fun _ => "") "MAX_TOPICS" 100 ∧
    TopicManager.addSubscriber (fun _ => "") topic100
        (SubscriberManager.newSubscriber Nat (fun _ => "") "extra" "t")
      = Except.error "maximum subscribers reached for topic" ∧
    (∃ t2, TopicManager.addSubscriber (fun _ => "") topicS1
        (SubscriberManager.newSubscriber Nat (fun _ => "") "s2" "a") = Except.ok t2) := by
  have h := reachable_caps Nat (fun _ => "")
    [Op.createTopic "a", Op.subscribe "a" "s1"] (by decide) (by decide)
  refine ⟨h.1, ?_, ?_⟩
  · refine h.2.2.1 topic100 (SubscriberManager.newSubscriber Nat (fun _ => "") "extra" "t") ?_
    simp [getEnvInt, topic100, subs100]
  · exact ⟨_, h.2.2.2 topicS1 (SubscriberManager.newSubscriber Nat (fun _ => "") "s2" "a")
      (by decide)⟩

end PubSub
